import Mathlib

/-!
Verification of the AutoEmulate model-comparison core against its
specification.  The Python source is embedded shallowly: pure numeric
routines that the orchestration treats as opaque (the estimators' numeric
fitting, sklearn's randomized search, the gpytorch regressor) appear as
function parameters, while every piece of orchestration logic
(`compare.py`, `model_registry.py`, `hyperparam_search.py`, `printing.py`,
the array post-processing in `gaussian_process_torch.py` and the parameter
spaces in `rbf.py`) is translated definition by definition.  float64
values are embedded as rationals where only ordering and field arithmetic
matter, plus explicit NaN/infinity markers where `np.isnan` matters.
-/

deriving instance DecidableEq for Except

namespace AutoEmu

/-- A float64 cell as far as the validation code can observe it: a finite
value, NaN, or a signed infinity (embedding of the values `np.isnan`
distinguishes). -/
inductive FVal where
  | fin (q : ℚ)
  | nan
  | inf
  | ninf
deriving DecidableEq, Repr

/-- Embedding of `np.isnan` on one cell. -/
def FVal.isNaN : FVal → Bool
  | .nan => true
  | _ => false

/-- A row of a 2-D numpy array. -/
abbrev Row := List FVal

/-- A 2-D numpy array as a list of rows (a 1-D vector is embedded as
single-cell rows, so that `shape[0]` is the list length either way). -/
abbrev Mat := List Row

/-- Embedding of `np.isnan(A).any()`. -/
def hasNaN (m : Mat) : Bool := m.any (fun r => r.any FVal.isNaN)

/-- One row of `scores_df`: `(model, metric, fold, score)`
(compare.py, the `new_row` appended in `_score_model_with_cv`). -/
structure ScoreRecord where
  model : String
  metric : String
  fold : ℕ
  score : ℚ
deriving DecidableEq, Repr

/-- Python `dict` update `d[k] = v`: replace the value at the first
occurrence of the key, keeping its position, else append a new entry. -/
def dictSet {C : Type} : List (String × C) → String → C → List (String × C)
  | [], k, v => [(k, v)]
  | (k', v') :: rest, k, v =>
      if k' = k then (k, v) :: rest else (k', v') :: dictSet rest k v

/-- Python `dict` read `d[k]` with a default for the (unreachable here)
KeyError case. -/
def dictGetD {C : Type} : List (String × C) → String → C → C
  | [], _, d => d
  | (k', v') :: rest, k, d => if k' = k then v' else dictGetD rest k d

/-- The long names (keys) of an embedded dict. -/
def dictKeys {C : Type} (d : List (String × C)) : List String := d.map Prod.fst

/-- Embedding of `ModelRegistry` (model_registry.py): `models` is the
name→class dict, `core_model_names` the list of core names.  The model
class type `C` is abstract (classes are opaque callables). -/
structure ModelRegistry (C : Type) where
  models : List (String × C)
  core_model_names : List String
deriving DecidableEq

/-- Embedding of `ModelRegistry.__init__`. -/
def ModelRegistry.empty (C : Type) : ModelRegistry C := ⟨[], []⟩

/-- Embedding of `ModelRegistry.register_model`: dict update of `models`,
and an unconditional append to `core_model_names` when `is_core`. -/
def ModelRegistry.register_model {C : Type} (r : ModelRegistry C)
    (model_name : String) (model_class : C) (is_core : Bool) : ModelRegistry C :=
  { models := dictSet r.models model_name model_class
    core_model_names :=
      if is_core then r.core_model_names ++ [model_name] else r.core_model_names }

/-- Embedding of `ModelRegistry.get_core_models`: one freshly constructed
instance (`inst c` embeds the call `c()`) per entry of `core_model_names`,
in order. -/
def ModelRegistry.get_core_models {C I : Type} (inst : C → I) (dflt : C)
    (r : ModelRegistry C) : List I :=
  r.core_model_names.map (fun n => inst (dictGetD r.models n dflt))

/-- The data interpolated into the ValueError message of
`ModelRegistry.get_model_names` ("One or more model names in {subset} not
found. Available models: {long names} or short names: {short names}"). -/
structure NameErr where
  subset : List String
  long_names : List String
  short_names : List String
deriving DecidableEq, Repr

/-- Embedding of `ModelRegistry.get_model_names` for a list subset (a
string subset is first wrapped into a one-element list by the source).
`short c` embeds `get_short_model_name(c())`, the pure short-name
derivation for class `c` (the function lives in the absent utils module;
only its determinism matters here). -/
def ModelRegistry.get_model_names {C : Type} (short : C → String)
    (r : ModelRegistry C) (model_subset : Option (List String)) :
    Except NameErr (List (String × String)) :=
  let model_names := r.models.map (fun nc => (nc.1, short nc.2))
  match model_subset with
  | none => .ok model_names
  | some sub =>
      if sub.all (fun m =>
          model_names.any (fun nv => nv.1 = m) ∨
          model_names.any (fun nv => nv.2 = m)) then
        .ok (model_names.filter (fun nv => nv.1 ∈ sub ∨ nv.2 ∈ sub))
      else
        .error { subset := sub
                 long_names := model_names.map Prod.fst
                 short_names := model_names.map Prod.snd }

/-- The data interpolated into the ValueError message of
`_print_cv_results` ("Model {model_name} not found. Available models are:
{model_names}"). -/
structure PrintErr where
  model_name : String
  available : List String
deriving DecidableEq, Repr

/-- Embedding of the validation step of `_print_cv_results`
(printing.py): when a model name is given it must be among
`[get_model_name(mod) for mod in models]`, the models' long names
(`getName` embeds `get_model_name`), else the ValueError is raised. -/
def print_cv_results_check {I : Type} (getName : I → String)
    (models : List I) (model_name : Option String) : Except PrintErr Unit :=
  match model_name with
  | none => .ok ()
  | some mn =>
      let model_names := models.map getName
      if mn ∈ model_names then .ok ()
      else .error { model_name := mn, available := model_names }

/-- An estimator object as `compare.py` observes it: its class name
(`type(model).__name__`), its hyperparameter configuration, and its
fitted state (`None` before the first `fit`).  `H` and `F` abstract the
numeric content. -/
structure Emu (H F : Type) where
  name : String
  hyper : H
  fitted : Option F
deriving DecidableEq, Repr

/-- The opaque numeric operations of an estimator, as consumed by the
orchestrator.  `fitRun h Xtr ytr` embeds `model.fit(X_train, y_train)`:
per the concrete estimators in the source (e.g. `RBF.fit` rebuilds
`self.model_` from the hyperparameters and the training data alone) the
new fitted state depends only on the hyperparameters and the data, and a
raised exception is an `Except.error`.  `scoreRun` embeds
`trained_model.score(X, y, metric=metric_func)` and `predictRun` embeds
`trained_model.predict(X_test)`, each reading the trained model's
hyperparameters and fitted state. -/
structure EmuOps (H F : Type) where
  fitRun : H → Mat → Mat → Except String F
  scoreRun : H → F → Mat → Mat → String → ℚ
  predictRun : H → F → Mat → Mat

/-- Numpy fancy-indexing `rows[index_list]` used for `self.X[train_index]`
etc. (fold indices produced by the splitter are always in range). -/
def idxRows (rows : Mat) (is : List ℕ) : Mat := is.map (fun i => rows.getD i [])

/-- Association-list write `d[k] = v` for the per-model prediction dicts,
generic in the key. -/
def assocSet {κ α : Type} [DecidableEq κ] : List (κ × α) → κ → α → List (κ × α)
  | [], k, v => [(k, v)]
  | (k', v') :: rest, k, v =>
      if k' = k then (k, v) :: rest else (k', v') :: assocSet rest k v

/-- Association-list read, first match. -/
def assocFind {κ α : Type} [DecidableEq κ] : List (κ × α) → κ → Option α
  | [], _ => none
  | (k', v') :: rest, k => if k' = k then some v' else assocFind rest k

/-- The `(y_true, y_pred)` pair stored in `predictions_data`. -/
abbrev PredPair := Mat × Mat

instance instDecEqFoldPreds : DecidableEq (List (ℕ × PredPair)) := inferInstance

instance instDecEqPredData : DecidableEq (List (String × List (ℕ × PredPair))) :=
  inferInstance

/-- State of an `AutoEmulate` object (compare.py `__init__`/`setup`):
the stored data, the tidy score table, the setup flag, the per-model
per-fold prediction store, and the constructed model list and metric
names. -/
structure AE (H F : Type) where
  X : Mat
  y : Mat
  scores_df : List ScoreRecord
  is_set_up : Bool
  predictions_data : List (String × List (ℕ × PredPair))
  models : List (Emu H F)
  metrics : List String
deriving DecidableEq, Repr

/-- Embedding of `AutoEmulate.__init__`: empty data, an empty score
table, not set up, no predictions. -/
def AE.init (H F : Type) : AE H F :=
  { X := [], y := [], scores_df := [], is_set_up := false
    predictions_data := [], models := [], metrics := [] }

/-- Embedding of `AutoEmulate._check_data`: mismatched sample counts and
NaN entries raise a ValueError, in that order; nothing else is checked. -/
def check_data (X y : Mat) : Except String Unit :=
  if X.length ≠ y.length then
    .error "X and y must have the same number of samples."
  else if hasNaN X || hasNaN y then
    .error "X and y should not contain NaNs."
  else
    .ok ()

/-- Embedding of `AutoEmulate.setup`: validate, store the (preprocessed)
data, construct the model instances from the registry and the metric
list, record the fold strategy, and mark the object set up.  `mkModels`
embeds the list comprehension over `MODEL_REGISTRY` (model construction
happens only after `_check_data` has passed), `mkMetrics` the
`METRIC_REGISTRY` keys. -/
def AE.setup {H F : Type} (mkModels : List (Emu H F)) (mkMetrics : List String)
    (s : AE H F) (X y : Mat) : Except String (AE H F) := do
  _ ← check_data X y
  .ok { s with X := X, y := y, models := mkModels, metrics := mkMetrics
               is_set_up := true }

/-- The per-fold loop of `AutoEmulate._score_model_with_cv`: for each
`(train_index, test_index)` (enumerated from `k`), slice the data, fit
the current model object on the training split, score every metric on
the test split, record `(y_true, y_pred)` under the fold index, and
append one score row per metric.  The same model object is threaded
through the folds, as in the source; a raised exception stops the loop
with the state accumulated so far. -/
def cvLoop {H F : Type} (ops : EmuOps H F) (metrics : List String) (X y : Mat)
    (m : Emu H F) (df : List ScoreRecord) (pd : List (ℕ × PredPair)) :
    ℕ → List (List ℕ × List ℕ) →
    Emu H F × List ScoreRecord × List (ℕ × PredPair) × Option String
  | _, [] => (m, df, pd, none)
  | k, (train_index, test_index) :: rest =>
      let Xtr := idxRows X train_index
      let Xte := idxRows X test_index
      let ytr := idxRows y train_index
      let yte := idxRows y test_index
      match ops.fitRun m.hyper Xtr ytr with
      | .error e => (m, df, pd, some e)
      | .ok f =>
          let tm : Emu H F := { m with fitted := some f }
          let fold_scores := metrics.map (fun met => (met, ops.scoreRun tm.hyper f Xte yte met))
          let y_pred := ops.predictRun tm.hyper f Xte
          let pd' := assocSet pd k (yte, y_pred)
          let df' := df ++ fold_scores.map (fun ms =>
            { model := m.name, metric := ms.1, fold := k, score := ms.2 : ScoreRecord })
          cvLoop ops metrics X y tm df' pd' (k + 1) rest

/-- Embedding of `AutoEmulate._score_model_with_cv`: ensure the model's
prediction dict exists, then run the fold loop over `cv.split(self.X)`
(`split` embeds the fold strategy, deterministic for a fixed seed).
Returns the updated state, the (refitted) model object, and the
propagated exception if one was raised. -/
def score_model_with_cv {H F : Type} (ops : EmuOps H F)
    (split : Mat → List (List ℕ × List ℕ)) (s : AE H F) (m : Emu H F) :
    AE H F × Emu H F × Option String :=
  let inner0 := (assocFind s.predictions_data m.name).getD []
  let r := cvLoop ops s.metrics s.X s.y m s.scores_df inner0 0 (split s.X)
  ({ s with scores_df := r.2.1
            predictions_data := assocSet s.predictions_data m.name r.2.2.1 },
   r.1, r.2.2.2)

/-- The model loop of `AutoEmulate.compare`: score each model in turn; a
raised exception propagates, leaving the remaining models unprocessed
(the source has no try/except around `_score_model_with_cv`). -/
def compareLoop {H F : Type} (ops : EmuOps H F)
    (split : Mat → List (List ℕ × List ℕ)) (s : AE H F) :
    List (Emu H F) → AE H F × List (Emu H F) × Option String
  | [] => (s, [], none)
  | m :: ms =>
      match score_model_with_cv ops split s m with
      | (s', m', none) =>
          let r := compareLoop ops split s' ms
          (r.1, m' :: r.2.1, r.2.2)
      | (s', m', some e) => (s', m' :: ms, some e)

/-- Embedding of `AutoEmulate.compare`: require `setup` to have run, then
sweep the stored models.  Nothing clears `scores_df` or
`predictions_data` before the sweep. -/
def AE.compare {H F : Type} (ops : EmuOps H F)
    (split : Mat → List (List ℕ × List ℕ)) (s : AE H F) :
    AE H F × Option String :=
  if s.is_set_up then
    let r := compareLoop ops split s s.models
    ({ r.1 with models := r.2.1 }, r.2.2)
  else
    (s, some "Must run setup() before compare()")

/-- A pipeline as `hyperparam_search.py` observes it: the wrapped model
step's parameter assignment (`model.named_steps["model"].get_params()`
crossed with the current settings).  Parameter values are opaque (`V`). -/
structure Pipe (V : Type) where
  params : List (String × V)
deriving DecidableEq, Repr

/-- Embedding of a `HyperparamSearch` object (constructor arguments plus
the `best_params` attribute, `{}`/`none` until a search completes). -/
structure HSearch (V : Type) where
  X : Mat
  y : Mat
  cv : ℕ
  n_jobs : ℤ
  niter : ℕ
  best_params : Option (List (String × V))
deriving DecidableEq, Repr

/-- Embedding of `HyperparamSearch.check_param_grid`: every key that
starts with `"model__"` must, after splitting on `"__"`, name a
parameter of the wrapped model, else a ValueError is raised (the dict /
string / list type checks are enforced by the Lean types). -/
def check_param_grid {V : Type} (param_grid : List (String × List V))
    (model : Pipe V) : Except String (List (String × List V)) :=
  if param_grid.all (fun kv =>
      ! (String.isPrefixOf "model__" kv.1) ||
      model.params.any (fun p => p.1 = (kv.1.splitOn "__").getD 1 "")) then
    .ok param_grid
  else
    .error "param_grid key is not a parameter of the model"

/-- Embedding of `HyperparamSearch.search`: take the grid from the model
(`get_grid_params()`, embedded by `getGrid`) or validate the supplied
one, run `RandomizedSearchCV(model, grid, n_iter, cv, n_jobs).fit(X, y)`
(its resulting `best_params_` is embedded by the opaque `rsBest`, since
the search fits clones), store the result in `self.best_params`, and
return `model` — the passed pipeline itself, which the source never
updates with the found parameters. -/
def HSearch.search {V : Type}
    (rsBest : Pipe V → List (String × List V) → ℕ → ℕ → Mat → Mat → List (String × V))
    (getGrid : Pipe V → List (String × List V))
    (hs : HSearch V) (model : Pipe V)
    (param_grid : Option (List (String × List V))) :
    Except String (HSearch V × Pipe V) := do
  let grid ← match param_grid with
    | none => pure (getGrid model)
    | some g => check_param_grid g model
  let best_params := rsBest model grid hs.niter hs.cv hs.X hs.y
  .ok ({ hs with best_params := some best_params }, model)

/-- A dimension of a declared hyperparameter space: a plain list of
categories, a `scipy.stats` distribution (`randint(lo, hi)`,
`uniform(loc, scale)`), or a `skopt.space` dimension (`Categorical`,
`Integer`, `Real`). -/
inductive HyperDist where
  | cats (ks : List String)
  | randint (lo hi : ℤ)
  | uniform (loc scale : ℚ)
  | scat (ks : List String)
  | sint (lo hi : ℤ)
  | sreal (lo hi : ℚ)
deriving DecidableEq, Repr

/-- The `param_space_random` literal of `RBF.get_grid_params` (rbf.py):
four conditional sub-grids keyed by kernel. -/
def RBF.param_space_random : List (List (String × HyperDist)) :=
  [ [("kernel", .cats ["linear", "multiquadric"]),
     ("degree", .randint 0 3), ("smoothing", .uniform 0 1)],
    [("kernel", .cats ["thin_plate_spline", "cubic"]),
     ("degree", .randint 1 3), ("smoothing", .uniform 0 1)],
    [("kernel", .cats ["quintic"]),
     ("degree", .randint 2 3), ("smoothing", .uniform 0 1)],
    [("kernel", .cats ["gaussian"]),
     ("degree", .randint (-1) 3), ("smoothing", .uniform 0 1)] ]

/-- The `param_space_bayes` literal of `RBF.get_grid_params` (rbf.py). -/
def RBF.param_space_bayes : List (List (String × HyperDist)) :=
  [ [("kernel", .scat ["linear", "multiquadric"]),
     ("degree", .sint 0 4), ("smoothing", .sreal 0 1)],
    [("kernel", .scat ["thin_plate_spline", "cubic"]),
     ("degree", .sint 1 4), ("smoothing", .sreal 0 1)],
    [("kernel", .scat ["quintic"]),
     ("degree", .sint 2 4), ("smoothing", .sreal 0 1)],
    [("kernel", .scat ["gaussian"]),
     ("degree", .sint (-1) 4), ("smoothing", .sreal 0 1)] ]

/-- Embedding of `RBF.get_grid_params(search_type="random")` (the Python
default argument is the string "random"): only the `"random"` and
`"bayes"` branches assign `param_space`; any other `search_type` reaches
`return param_space` with the local unbound (UnboundLocalError),
embedded as `none`. -/
def RBF.get_grid_params (search_type : String) :
    Option (List (List (String × HyperDist))) :=
  if search_type = "random" then some RBF.param_space_random
  else if search_type = "bayes" then some RBF.param_space_bayes
  else none

/-- Pandas `Series.idxmax` restricted to the score column: the first
record (in dataframe order) attaining the maximal score. -/
def firstArgmaxScore : List ScoreRecord → Option ScoreRecord
  | [] => none
  | r :: rs =>
      match firstArgmaxScore rs with
      | none => some r
      | some b => if b.score > r.score then some b else some r

/-- The best-fold computation of `AutoEmulate.plot_predictions`
(compare.py): restrict `scores_df` to metric `"r2"`, group by model and
take `idxmax` of the score, then map the winning row to its fold.  This
is the group at one model name. -/
def best_fold_r2 (df : List ScoreRecord) (model : String) : Option ℕ :=
  (firstArgmaxScore ((df.filter (fun r => r.metric = "r2")).filter
      (fun r => r.model = model))).map (fun r => r.fold)

/-- A numpy float array of dimension 0, 1 or 2, with rational cells. -/
inductive NdArr where
  | a0 (x : ℚ)
  | a1 (xs : List ℚ)
  | a2 (xss : List (List ℚ))
deriving DecidableEq, Repr

/-- Embedding of `ndarray.ndim`. -/
def NdArr.ndim : NdArr → ℕ
  | .a0 _ => 0
  | .a1 _ => 1
  | .a2 _ => 2

/-- Embedding of `ndarray.squeeze()`: every length-1 axis is removed (in
particular a `(1, 1)` array becomes 0-dimensional). -/
def NdArr.squeeze : NdArr → NdArr
  | .a0 x => .a0 x
  | .a1 xs => if xs.length = 1 then .a0 (xs.getD 0 0) else .a1 xs
  | .a2 xss =>
      let n := xss.length
      let m := (xss.getD 0 []).length
      if n = 1 && m = 1 then .a0 ((xss.getD 0 []).getD 0 0)
      else if m = 1 then .a1 (xss.map (fun r => r.getD 0 0))
      else if n = 1 then .a1 (xss.getD 0 [])
      else .a2 xss

/-- Elementwise `a * s + t` with scalar broadcasting (`mean *
self._y_train_std + self._y_train_mean`). -/
def NdArr.scaleShift : NdArr → ℚ → ℚ → NdArr
  | .a0 x, s, t => .a0 (x * s + t)
  | .a1 xs, s, t => .a1 (xs.map (fun x => x * s + t))
  | .a2 xss, s, t => .a2 (xss.map (fun r => r.map (fun x => x * s + t)))

/-- Elementwise `a * s` with scalar broadcasting (`std *
self._y_train_std`). -/
def NdArr.scaleBy : NdArr → ℚ → NdArr
  | .a0 x, s => .a0 (x * s)
  | .a1 xs, s => .a1 (xs.map (fun x => x * s))
  | .a2 xss, s => .a2 (xss.map (fun r => r.map (fun x => x * s)))

/-- Embedding of sklearn's `_handle_zeros_in_scale` on a scalar scale:
a zero standard deviation is replaced by 1. -/
def handle_zeros_in_scale (s : ℚ) : ℚ := if s = 0 then 1 else s

/-- Embedding of `np.mean` on a 1-D array. -/
def np_mean (y : List ℚ) : ℚ := (y.foldl (· + ·) 0) / (y.length : ℚ)

/-- The target-related state `GaussianProcessTorch.fit` stores for a
one-dimensional `y` (`y_dim_ = y.ndim = 1`): the normalization flag and,
when normalizing, the training mean and the zero-guarded training
standard deviation of `y`. -/
structure GPTorchFitted where
  y_dim : ℕ
  normalize_y : Bool
  y_train_mean : ℚ
  y_train_std : ℚ
deriving DecidableEq, Repr

/-- The normalization part of `GaussianProcessTorch.fit` on a
one-dimensional target: store `y_dim_ = 1`, and when `normalize_y` the
mean and the zero-guarded standard deviation of `y`; the internal model
is trained on `(y - mean) / std`, returned here alongside the stats.
`stdFn` embeds `np.std` (its square root is not rational). -/
def GaussianProcessTorch.fit_stats (normalize_y : Bool) (stdFn : List ℚ → ℚ)
    (y : List ℚ) : GPTorchFitted × List ℚ :=
  if normalize_y then
    let μ := np_mean y
    let σ := handle_zeros_in_scale (stdFn y)
    ({ y_dim := 1, normalize_y := true, y_train_mean := μ, y_train_std := σ },
     y.map (fun v => (v - μ) / σ))
  else
    ({ y_dim := 1, normalize_y := false, y_train_mean := 0, y_train_std := 1 }, y)

/-- The return value of `GaussianProcessTorch.predict`: the mean alone,
or the `(mean, std)` pair when `return_std` is set. -/
inductive GPPredOut where
  | single (m : NdArr)
  | withStd (m s : NdArr)
deriving DecidableEq, Repr

/-- Embedding of `GaussianProcessTorch.predict` after the internal
`self.model_.predict(X, return_std=True)` call, whose raw outputs are
the `internalMean`/`internalStd` arguments (skorch is the external
collaborator): cast to float64 (identity here), squeeze both arrays when
the mean is 2-D and the training target was 1-D, then undo the
normalization, and return the pair or the mean alone. -/
def GaussianProcessTorch.predict (f : GPTorchFitted)
    (internalMean internalStd : NdArr) (return_std : Bool) : GPPredOut :=
  let p :=
    if internalMean.ndim = 2 && f.y_dim = 1 then
      (internalMean.squeeze, internalStd.squeeze)
    else (internalMean, internalStd)
  let q :=
    if f.normalize_y then
      (p.1.scaleShift f.y_train_std f.y_train_mean, p.2.scaleBy f.y_train_std)
    else p
  if return_std then .withStd q.1 q.2 else .single q.1

/-- Modelled from the claim (refinement side of C6): the score rows a
cross-validation of model `n` should produce — for each fold `k` one row
per metric, scored by an estimator fitted exactly once on fold `k`'s
training split, starting from the pre-fit hyperparameters `h` with no
state carried from any other fold. -/
def cvRowsSpec {H F : Type} (ops : EmuOps H F) (g : H → Mat → Mat → F)
    (metrics : List String) (X y : Mat) (n : String) (h : H) :
    ℕ → List (List ℕ × List ℕ) → List ScoreRecord
  | _, [] => []
  | k, (tr, te) :: rest =>
      (metrics.map fun met =>
        { model := n, metric := met, fold := k
          score := ops.scoreRun h (g h (idxRows X tr) (idxRows y tr))
                     (idxRows X te) (idxRows y te) met }) ++
      cvRowsSpec ops g metrics X y n h (k + 1) rest

/-- Modelled from the claim (refinement side of C6): the per-fold
prediction entries — fold `k`'s predictions come from an estimator
fitted on exactly fold `k`'s training split from hyperparameters `h`. -/
def cvPredsSpec {H F : Type} (ops : EmuOps H F) (g : H → Mat → Mat → F)
    (X y : Mat) (h : H) : ℕ → List (List ℕ × List ℕ) → List (ℕ × PredPair)
  | _, [] => []
  | k, (tr, te) :: rest =>
      (k, (idxRows y te,
           ops.predictRun h (g h (idxRows X tr) (idxRows y tr)) (idxRows X te))) ::
      cvPredsSpec ops g X y h (k + 1) rest

/-- The fitted state held by the threaded model object after the fold
loop: that of the last fold's fit (or the initial one if no folds). -/
def cvLastFitted {H F : Type} (g : H → Mat → Mat → F) (X y : Mat) (h : H) :
    Option F → List (List ℕ × List ℕ) → Option F
  | f0, [] => f0
  | _, (tr, _) :: rest =>
      cvLastFitted g X y h (some (g h (idxRows X tr) (idxRows y tr))) rest

/-- Concrete estimator operations with a total fit: the fitted state is
the hyperparameter itself, scores report the fitted state, predictions
echo the test rows. -/
def tkOpsT : EmuOps ℕ ℕ :=
  ⟨fun h _ _ => .ok h, fun _ f _ _ _ => (f : ℚ), fun _ _ Xte => Xte⟩

/-- Concrete estimator operations whose fit raises for hyperparameter 1
(a model whose numeric fit fails). -/
def tkOpsE : EmuOps ℕ ℕ :=
  ⟨fun h _ _ => if h = 1 then .error "boom" else .ok h,
   fun _ f _ _ _ => (f : ℚ), fun _ _ Xte => Xte⟩

/-- A deterministic one-fold split (test index 0). -/
def tkSplit1 : Mat → List (List ℕ × List ℕ) := fun _ => [([], [0])]

/-- A deterministic two-fold split of two samples. -/
def tkSplit2 : Mat → List (List ℕ × List ℕ) := fun _ => [([0], [1]), ([1], [0])]

/-- A set-up `AutoEmulate` state holding one model "A", one metric and
two samples. -/
def tkStateA : AE ℕ ℕ :=
  { X := [[.fin 0], [.fin 1]], y := [[.fin 2], [.fin 3]], scores_df := []
    is_set_up := true, predictions_data := []
    models := [⟨"A", 5, none⟩], metrics := ["r2"] }

/-- A set-up state with three models "A", "B", "C" of which "B"'s fit
raises under `tkOpsE`, one metric and one sample. -/
def tkStateABC : AE ℕ ℕ :=
  { X := [[.fin 0]], y := [[.fin 1]], scores_df := []
    is_set_up := true, predictions_data := []
    models := [⟨"A", 0, none⟩, ⟨"B", 1, none⟩, ⟨"C", 2, none⟩], metrics := ["r2"] }

/-! Helper lemmas about the embedded dict operations. -/

theorem dictGetD_dictSet {C : Type} (l : List (String × C)) (k : String) (v d : C) :
    dictGetD (dictSet l k v) k d = v := by
  induction l with
  | nil => simp [dictSet, dictGetD]
  | cons hd tl ih =>
      by_cases hk : hd.1 = k
      · simp [dictSet, dictGetD, hk]
      · simpa [dictSet, dictGetD, hk] using ih

theorem dictKeys_dictSet {C : Type} (l : List (String × C)) (k : String) (v : C) :
    dictKeys (dictSet l k v) =
      if k ∈ dictKeys l then dictKeys l else dictKeys l ++ [k] := by
  induction l with
  | nil => simp [dictSet, dictKeys]
  | cons hd tl ih =>
      obtain ⟨k', v'⟩ := hd
      by_cases hk : k' = k
      · simp [dictSet, dictKeys, hk]
      · have hne : ¬ k = k' := fun h => hk h.symm
        simp only [dictSet, hk, if_false, dictKeys, List.map_cons, List.mem_cons, hne,
          false_or] at ih ⊢
        rw [ih]
        by_cases hmem : k ∈ List.map Prod.fst tl
        · simp [hmem]
        · simp [hmem]

theorem dictSet_keys_nodup {C : Type} (l : List (String × C)) (k : String) (v : C)
    (h : (dictKeys l).Nodup) : (dictKeys (dictSet l k v)).Nodup := by
  rw [dictKeys_dictSet]
  by_cases hmem : k ∈ dictKeys l
  · simpa [hmem] using h
  · simp only [hmem, if_false]
    refine List.Nodup.append h (List.nodup_singleton k) ?_
    intro a ha hak
    exact hmem ((List.mem_singleton.mp hak) ▸ ha)

/-- C8 counterexample: registering the same name with `is_core=True` twice
and then resolving the core models yields two constructed instances for
the single distinct core name, not one — `register_model` appends to
`core_model_names` on every core registration. -/
theorem register_core_twice_cex :
    (ModelRegistry.get_core_models (fun c => c) 0
        (((ModelRegistry.empty ℕ).register_model "A" 7 true).register_model
          "A" 7 true)).length = 2 ∧
    ((((ModelRegistry.empty ℕ).register_model "A" 7 true).register_model
        "A" 7 true).core_model_names).dedup.length = 1 := by
  decide

/-- C8 amended: registering an already-registered name overwrites the
`models` entry in place (last write wins) and preserves uniqueness of the
long names in `models`; but every `is_core` registration appends to
`core_model_names`, and `get_core_models` constructs one instance per
entry of that list (per registration, not per distinct name). -/
theorem register_model_last_write_wins {C I : Type} (inst : C → I) (dflt d : C)
    (r : ModelRegistry C) (n : String) (c : C)
    (h : (dictKeys r.models).Nodup) :
    (dictKeys ((r.register_model n c true).models)).Nodup ∧
    dictGetD (r.register_model n c true).models n d = c ∧
    (r.register_model n c true).core_model_names = r.core_model_names ++ [n] ∧
    (ModelRegistry.get_core_models inst dflt r).length = r.core_model_names.length := by
  refine ⟨dictSet_keys_nodup _ _ _ h, dictGetD_dictSet _ _ _ _, ?_, ?_⟩
  · simp [ModelRegistry.register_model]
  · simp [ModelRegistry.get_core_models]

/-- Witness for `register_model_last_write_wins` at a concrete registry:
the name "A" is re-registered with a new class over a registry that
already holds it. -/
theorem register_model_last_write_wins_witness :
    (dictKeys (((((ModelRegistry.empty ℕ).register_model "A" 7 true)).register_model
        "A" 9 true).models)).Nodup ∧
    dictGetD ((((ModelRegistry.empty ℕ).register_model "A" 7 true)).register_model
        "A" 9 true).models "A" 0 = 9 ∧
    ((((ModelRegistry.empty ℕ).register_model "A" 7 true)).register_model
        "A" 9 true).core_model_names =
      ((ModelRegistry.empty ℕ).register_model "A" 7 true).core_model_names ++ ["A"] ∧
    (ModelRegistry.get_core_models (fun c => c) 0
        ((ModelRegistry.empty ℕ).register_model "A" 7 true)).length =
      ((ModelRegistry.empty ℕ).register_model "A" 7 true).core_model_names.length :=
  register_model_last_write_wins (fun c => c) 0 0
    ((ModelRegistry.empty ℕ).register_model "A" 7 true) "A" 9 (by decide)

/-- C7 counterexample: with one registered model of long name
"RandomForest" and short name "rf", the registry resolves the valid
short name "rf" to the matching model, but the reporting layer's check
(`_print_cv_results`) raises its not-found ValueError for the very same
valid short name, because it matches against long names only. -/
theorem reporting_rejects_short_name_cex :
    ModelRegistry.get_model_names (fun _ => "rf")
        ((ModelRegistry.empty ℕ).register_model "RandomForest" 0 true)
        (some ["rf"]) = .ok [("RandomForest", "rf")] ∧
    print_cv_results_check (fun s => s) ["RandomForest"] (some "rf") =
      .error { model_name := "rf", available := ["RandomForest"] } := by
  decide

/-- C7 amended: in the registry, a subset entry matching no long or short
name makes `get_model_names` raise the ValueError carrying the queried
subset (which contains the offending entry) and the lists of valid long
and short names, while an all-valid subset selects exactly the entries
matched by long or short name; the reporting layer's check accepts
exactly the long names — any other string, short names included, raises
its not-found ValueError listing the long names. -/
theorem model_name_query_resolution {C I : Type} (short : C → String)
    (getName : I → String) (r : ModelRegistry C) (models : List I)
    (sub_bad sub_ok : List String) (e mn_ok mn_bad : String) :
    (e ∈ sub_bad → (∀ nc ∈ r.models, nc.1 ≠ e ∧ short nc.2 ≠ e) →
      r.get_model_names short (some sub_bad) =
        .error { subset := sub_bad
                 long_names := r.models.map Prod.fst
                 short_names := r.models.map (fun nc => short nc.2) }) ∧
    ((∀ m ∈ sub_ok, ∃ nc ∈ r.models, nc.1 = m ∨ short nc.2 = m) →
      r.get_model_names short (some sub_ok) =
        .ok ((r.models.map (fun nc => (nc.1, short nc.2))).filter
              (fun nv => nv.1 ∈ sub_ok ∨ nv.2 ∈ sub_ok))) ∧
    (mn_ok ∈ models.map getName →
      print_cv_results_check getName models (some mn_ok) = .ok ()) ∧
    (mn_bad ∉ models.map getName →
      print_cv_results_check getName models (some mn_bad) =
        .error { model_name := mn_bad, available := models.map getName }) := by
  refine ⟨?_, ?_, ?_, ?_⟩
  · intro he hno
    have hall : ¬ ((sub_bad.all fun m =>
        ((r.models.map (fun nc => (nc.1, short nc.2))).any fun nv => nv.1 = m) ∨
        ((r.models.map (fun nc => (nc.1, short nc.2))).any fun nv => nv.2 = m)) = true) := by
      intro htrue
      rw [List.all_eq_true] at htrue
      have hfe := htrue e he
      simp only [decide_eq_true_eq, List.any_eq_true, List.mem_map] at hfe
      rcases hfe with ⟨nv, ⟨nc, hnc, hv⟩, hp⟩ | ⟨nv, ⟨nc, hnc, hv⟩, hp⟩
      · exact (hno nc hnc).1 (by rw [← hv] at hp; exact hp)
      · exact (hno nc hnc).2 (by rw [← hv] at hp; exact hp)
    simp only [ModelRegistry.get_model_names]
    rw [if_neg hall]
    simp [List.map_map, Function.comp]
  · intro hok
    have hall : (sub_ok.all fun m =>
        ((r.models.map (fun nc => (nc.1, short nc.2))).any fun nv => nv.1 = m) ∨
        ((r.models.map (fun nc => (nc.1, short nc.2))).any fun nv => nv.2 = m)) = true := by
      rw [List.all_eq_true]
      intro m hm
      obtain ⟨nc, hnc, hor⟩ := hok m hm
      simp only [decide_eq_true_eq, List.any_eq_true, List.mem_map]
      rcases hor with h1 | h2
      · exact Or.inl ⟨(nc.1, short nc.2), ⟨nc, hnc, rfl⟩, by simpa using h1⟩
      · exact Or.inr ⟨(nc.1, short nc.2), ⟨nc, hnc, rfl⟩, by simpa using h2⟩
    simp only [ModelRegistry.get_model_names]
    rw [if_pos hall]
  · intro hmem
    simp only [print_cv_results_check]
    rw [if_pos hmem]
  · intro hmem
    simp only [print_cv_results_check]
    rw [if_neg hmem]

/-- Witness for `model_name_query_resolution` on a one-model registry
with long name "RandomForest" and short name "rf": the unknown entry
"bogus" errors with the full name data, the valid subset
["RandomForest"] resolves, and the reporting check accepts the long
name but rejects the valid short name "rf". -/
theorem model_name_query_resolution_witness :
    (ModelRegistry.get_model_names (fun _ => "rf")
        ((ModelRegistry.empty ℕ).register_model "RandomForest" 0 true)
        (some ["bogus"]) =
      .error { subset := ["bogus"], long_names := ["RandomForest"]
               short_names := ["rf"] }) ∧
    (ModelRegistry.get_model_names (fun _ => "rf")
        ((ModelRegistry.empty ℕ).register_model "RandomForest" 0 true)
        (some ["RandomForest"]) = .ok [("RandomForest", "rf")]) ∧
    (print_cv_results_check (fun s => s) ["RandomForest"]
        (some "RandomForest") = .ok ()) ∧
    (print_cv_results_check (fun s => s) ["RandomForest"] (some "rf") =
      .error { model_name := "rf", available := ["RandomForest"] }) :=
  ⟨(model_name_query_resolution (fun _ => "rf") (fun s => s)
      ((ModelRegistry.empty ℕ).register_model "RandomForest" 0 true)
      ["RandomForest"] ["bogus"] ["RandomForest"] "bogus" "RandomForest" "rf").1
      (by decide) (by decide),
   (model_name_query_resolution (fun _ => "rf") (fun s => s)
      ((ModelRegistry.empty ℕ).register_model "RandomForest" 0 true)
      ["RandomForest"] ["bogus"] ["RandomForest"] "bogus" "RandomForest" "rf").2.1
      (by decide),
   (model_name_query_resolution (fun _ => "rf") (fun s => s)
      ((ModelRegistry.empty ℕ).register_model "RandomForest" 0 true)
      ["RandomForest"] ["bogus"] ["RandomForest"] "bogus" "RandomForest" "rf").2.2.1
      (by decide),
   (model_name_query_resolution (fun _ => "rf") (fun s => s)
      ((ModelRegistry.empty ℕ).register_model "RandomForest" 0 true)
      ["RandomForest"] ["bogus"] ["RandomForest"] "bogus" "RandomForest" "rf").2.2.2
      (by decide)⟩

/-- C3: whenever `HyperparamSearch.search` completes, the pipeline it
returns is exactly the pipeline that was passed in — the source stores
`best_params_` on the search object only and never writes the found
configuration back onto the estimator (`RandomizedSearchCV` fits
clones), so the returned estimator does not carry the best parameters
(contradicting the function's own docstring, "Model pipeline with
optimized parameters"). -/
theorem search_returns_model_unchanged {V : Type}
    (rsBest : Pipe V → List (String × List V) → ℕ → ℕ → Mat → Mat → List (String × V))
    (getGrid : Pipe V → List (String × List V))
    (hs : HSearch V) (model : Pipe V)
    (param_grid : Option (List (String × List V)))
    (hs' : HSearch V) (m' : Pipe V)
    (h : HSearch.search rsBest getGrid hs model param_grid = .ok (hs', m')) :
    m' = model := by
  cases param_grid with
  | none =>
      simp only [HSearch.search, pure, bind, Except.bind, Except.pure,
        Except.ok.injEq, Prod.mk.injEq] at h
      exact h.2.symm
  | some g =>
      by_cases hg : (g.all fun kv =>
          ! (String.isPrefixOf "model__" kv.1) ||
          model.params.any fun p => p.1 = (kv.1.splitOn "__").getD 1 "") = true
      · simp only [HSearch.search, check_param_grid, hg, if_true, pure, bind,
          Except.bind, Except.pure, Except.ok.injEq, Prod.mk.injEq] at h
        exact h.2.symm
      · simp only [HSearch.search, check_param_grid, bind, Except.bind] at h
        rw [if_neg hg] at h
        simp at h

/-- Witness for `search_returns_model_unchanged`: a concrete search over
one integer parameter "a" currently set to 0 whose best found value is
1; the search completes, stores `best_params = [("a", 1)]`, yet returns
the pipeline still carrying `[("a", 0)]`. -/
theorem search_returns_model_unchanged_witness :
    (⟨[("a", 0)]⟩ : Pipe ℕ) = ⟨[("a", 0)]⟩ :=
  search_returns_model_unchanged
    (fun _ _ _ _ _ _ => [("a", 1)]) (fun _ => [("a", [0, 1])])
    ⟨[], [], 5, 1, 20, none⟩ ⟨[("a", 0)]⟩ none
    ⟨[], [], 5, 1, 20, some [("a", 1)]⟩ ⟨[("a", 0)]⟩ rfl

/-- C4 counterexample: `RBF.get_grid_params("grid")` assigns no
`param_space` (only "random" and "bayes" do) and crashes with an
UnboundLocalError instead of returning a search space — there is no
"grid" strategy and no dedicated invalid-strategy error. -/
theorem rbf_grid_search_type_cex : RBF.get_grid_params "grid" = none := by
  decide

/-- C4 amended: `RBF.get_grid_params` yields the declared conditional
space for "random" and for "bayes" — two spaces over the identical
parameter names per sub-grid — and crashes (no assigned space) for any
other `search_type`, "grid" included; the search itself is always
`RandomizedSearchCV` with no strategy argument. -/
theorem rbf_get_grid_params_branches :
    RBF.get_grid_params "random" = some RBF.param_space_random ∧
    RBF.get_grid_params "bayes" = some RBF.param_space_bayes ∧
    RBF.get_grid_params "grid" = none ∧
    RBF.param_space_random.map (fun sub => sub.map Prod.fst) =
      RBF.param_space_bayes.map (fun sub => sub.map Prod.fst) := by
  decide

/-- C5 counterexample: an input containing `inf` (non-finite but not
NaN) passes `_check_data` — `np.isnan` does not flag infinities — so
`setup` succeeds and constructs the models, which will be fit on the
non-finite data. -/
theorem setup_infinite_passes_cex :
    AE.setup [(⟨"RBF", 0, none⟩ : Emu ℕ ℕ)] ["r2"] (AE.init ℕ ℕ)
        [[.inf]] [[.fin 0]] =
      .ok { AE.init ℕ ℕ with
            X := [[.inf]]
            y := [[.fin 0]]
            models := [⟨"RBF", 0, none⟩]
            metrics := ["r2"]
            is_set_up := true } := by
  decide

/-- C5 amended: `setup` raises a ValueError before any model is
constructed when the sample counts differ or when either array contains
a NaN (in that order of checks); infinities are not detected. -/
theorem setup_rejects_mismatch_and_nan {H F : Type}
    (mk : List (Emu H F)) (mets : List String) (s : AE H F) (X y : Mat)
    (h : X.length ≠ y.length ∨ hasNaN X = true ∨ hasNaN y = true) :
    AE.setup mk mets s X y =
      .error (if X.length ≠ y.length then
                "X and y must have the same number of samples."
              else "X and y should not contain NaNs.") := by
  by_cases hlen : X.length = y.length
  · have hnan : (hasNaN X || hasNaN y) = true := by
      rcases h with h1 | h2 | h3
      · exact absurd hlen h1
      · simp [h2]
      · simp [h3]
    simp [AE.setup, check_data, hlen, hnan, bind, Except.bind]
  · simp [AE.setup, check_data, hlen, bind, Except.bind]

/-- Witness for `setup_rejects_mismatch_and_nan`: two samples in X but
one in y is rejected with the sample-count message. -/
theorem setup_rejects_mismatch_and_nan_witness :
    AE.setup ([] : List (Emu ℕ ℕ)) [] (AE.init ℕ ℕ)
        [[.fin 0], [.fin 1]] [[.fin 0]] =
      .error (if ([[FVal.fin 0], [FVal.fin 1]] : Mat).length ≠
                ([[FVal.fin 0]] : Mat).length then
                "X and y must have the same number of samples."
              else "X and y should not contain NaNs.") :=
  setup_rejects_mismatch_and_nan [] [] (AE.init ℕ ℕ)
    [[.fin 0], [.fin 1]] [[.fin 0]] (Or.inl (by decide))

theorem assocSet_append {κ α : Type} [DecidableEq κ] (pd : List (κ × α)) (k : κ)
    (v : α) (h : ∀ kv ∈ pd, kv.1 ≠ k) : assocSet pd k v = pd ++ [(k, v)] := by
  induction pd with
  | nil => simp [assocSet]
  | cons hd tl ih =>
      have hne : ¬ hd.1 = k := h hd (List.mem_cons_self hd tl)
      obtain ⟨k', v'⟩ := hd
      simp only [assocSet, hne, if_false, List.cons_append, List.cons.injEq, true_and]
      exact ih (fun kv hkv => h kv (List.mem_cons_of_mem _ hkv))

theorem assocFind_eq_none {κ α : Type} [DecidableEq κ] (l : List (κ × α)) (k : κ)
    (h : assocFind l k = none) : ∀ kv ∈ l, kv.1 ≠ k := by
  induction l with
  | nil => intro kv hkv; simp at hkv
  | cons hd tl ih =>
      intro kv hkv
      obtain ⟨k', v'⟩ := hd
      by_cases hk : k' = k
      · simp [assocFind, hk] at h
      · rcases List.mem_cons.mp hkv with rfl | hmem
        · exact hk
        · exact ih (by simpa [assocFind, hk] using h) kv hmem

theorem cvLoop_total {H F : Type} (ops : EmuOps H F) (g : H → Mat → Mat → F)
    (hfit : ∀ h a b, ops.fitRun h a b = Except.ok (g h a b))
    (metrics : List String) (X y : Mat) :
    ∀ (folds : List (List ℕ × List ℕ)) (k : ℕ) (m : Emu H F)
      (df : List ScoreRecord) (pd : List (ℕ × PredPair)),
      (∀ kv ∈ pd, kv.1 < k) →
      cvLoop ops metrics X y m df pd k folds =
        (⟨m.name, m.hyper, cvLastFitted g X y m.hyper m.fitted folds⟩,
         df ++ cvRowsSpec ops g metrics X y m.name m.hyper k folds,
         pd ++ cvPredsSpec ops g X y m.hyper k folds,
         none) := by
  intro folds
  induction folds with
  | nil => intro k m df pd _; simp [cvLoop, cvRowsSpec, cvPredsSpec, cvLastFitted]
  | cons fold rest ih =>
      intro k m df pd hpd
      obtain ⟨tr, te⟩ := fold
      have hset : assocSet pd k (idxRows y te,
          ops.predictRun m.hyper (g m.hyper (idxRows X tr) (idxRows y tr)) (idxRows X te)) =
          pd ++ [(k, (idxRows y te,
            ops.predictRun m.hyper (g m.hyper (idxRows X tr) (idxRows y tr)) (idxRows X te)))] :=
        assocSet_append _ _ _ (fun kv hkv => Nat.ne_of_lt (hpd kv hkv))
      have hpd' : ∀ kv ∈ pd ++ [(k, (idxRows y te,
          ops.predictRun m.hyper (g m.hyper (idxRows X tr) (idxRows y tr)) (idxRows X te)))],
          kv.1 < k + 1 := by
        intro kv hkv
        rcases List.mem_append.mp hkv with hmem | hmem
        · exact Nat.lt_succ_of_lt (hpd kv hmem)
        · rcases List.mem_singleton.mp hmem with rfl
          exact Nat.lt_succ_self k
      simp only [cvLoop, hfit, hset]
      rw [ih (k + 1) ⟨m.name, m.hyper, some (g m.hyper (idxRows X tr) (idxRows y tr))⟩
            _ _ hpd']
      simp [cvRowsSpec, cvPredsSpec, cvLastFitted, List.map_map, List.append_assoc,
        Function.comp]

/-- C6: within one cross-validation run of a model (total numeric fit
`g`, fresh prediction key), `_score_model_with_cv` produces exactly the
rows and predictions of `cvRowsSpec`/`cvPredsSpec`: fold `k`'s scores
and stored predictions come from an estimator fitted exactly once on
fold `k`'s own training split, always starting from the model's
original pre-fit hyperparameters `m.hyper` (which the loop never
changes), so no fold's evaluation carries fitted state from an earlier
fold; the threaded model object ends with its name and hyperparameters
intact. -/
theorem score_model_with_cv_fold_isolation {H F : Type} (ops : EmuOps H F)
    (g : H → Mat → Mat → F) (split : Mat → List (List ℕ × List ℕ))
    (s : AE H F) (m : Emu H F)
    (hfit : ∀ h a b, ops.fitRun h a b = Except.ok (g h a b))
    (hfresh : assocFind s.predictions_data m.name = none) :
    score_model_with_cv ops split s m =
      ({ s with
         scores_df := s.scores_df ++
           cvRowsSpec ops g s.metrics s.X s.y m.name m.hyper 0 (split s.X)
         predictions_data := s.predictions_data ++
           [(m.name, cvPredsSpec ops g s.X s.y m.hyper 0 (split s.X))] },
       ⟨m.name, m.hyper, cvLastFitted g s.X s.y m.hyper m.fitted (split s.X)⟩,
       none) := by
  have hloop := cvLoop_total ops g hfit s.metrics s.X s.y (split s.X) 0 m
    s.scores_df [] (by intro kv hkv; simp at hkv)
  have hset := assocSet_append s.predictions_data m.name
    (cvPredsSpec ops g s.X s.y m.hyper 0 (split s.X))
    (assocFind_eq_none _ _ hfresh)
  simp only [score_model_with_cv, hfresh, Option.getD_none, hloop, List.nil_append,
    hset]

/-- Witness for `score_model_with_cv_fold_isolation` on the concrete
two-fold state `tkStateA`: both folds are scored from the original
hyperparameter 5, predictions echo each fold's test rows, and the
exception slot is empty. -/
theorem score_model_with_cv_fold_isolation_witness :
    score_model_with_cv tkOpsT tkSplit2 tkStateA ⟨"A", 5, none⟩ =
      ({ tkStateA with
         scores_df := [⟨"A", "r2", 0, 5⟩, ⟨"A", "r2", 1, 5⟩]
         predictions_data :=
           [("A", [(0, ([[.fin 3]], [[.fin 1]])), (1, ([[.fin 2]], [[.fin 0]]))])] },
       ⟨"A", 5, some 5⟩, none) :=
  (score_model_with_cv_fold_isolation tkOpsT (fun h _ _ => h) tkSplit2 tkStateA
    ⟨"A", 5, none⟩ (fun _ _ _ => rfl) rfl).trans (by decide)

theorem cvLoop_df_extends {H F : Type} (ops : EmuOps H F) (metrics : List String)
    (X y : Mat) :
    ∀ (folds : List (List ℕ × List ℕ)) (k : ℕ) (m : Emu H F)
      (df : List ScoreRecord) (pd : List (ℕ × PredPair)),
      ∃ t, (cvLoop ops metrics X y m df pd k folds).2.1 = df ++ t := by
  intro folds
  induction folds with
  | nil => intro k m df pd; exact ⟨[], by simp [cvLoop]⟩
  | cons fold rest ih =>
      intro k m df pd
      obtain ⟨tr, te⟩ := fold
      simp only [cvLoop]
      cases hf : ops.fitRun m.hyper (idxRows X tr) (idxRows y tr) with
      | error e => exact ⟨[], by simp⟩
      | ok f =>
          obtain ⟨t, ht⟩ := ih (k + 1) ⟨m.name, m.hyper, some f⟩
            (df ++ (metrics.map fun met =>
              (met, ops.scoreRun m.hyper f (idxRows X te) (idxRows y te) met)).map
                (fun ms => { model := m.name, metric := ms.1, fold := k, score := ms.2 }))
            (assocSet pd k (idxRows y te, ops.predictRun m.hyper f (idxRows X te)))
          refine ⟨(metrics.map fun met =>
              (met, ops.scoreRun m.hyper f (idxRows X te) (idxRows y te) met)).map
                (fun ms => { model := m.name, metric := ms.1, fold := k, score := ms.2 })
              ++ t, ?_⟩
          rw [ht, List.append_assoc]

theorem score_model_with_cv_df_extends {H F : Type} (ops : EmuOps H F)
    (split : Mat → List (List ℕ × List ℕ)) (s : AE H F) (m : Emu H F) :
    ∃ t, (score_model_with_cv ops split s m).1.scores_df = s.scores_df ++ t := by
  obtain ⟨t, ht⟩ := cvLoop_df_extends ops s.metrics s.X s.y (split s.X) 0 m
    s.scores_df ((assocFind s.predictions_data m.name).getD [])
  exact ⟨t, by simp [score_model_with_cv, ht]⟩

theorem compareLoop_cons_ok {H F : Type} (ops : EmuOps H F)
    (split : Mat → List (List ℕ × List ℕ)) {s s' : AE H F} {m m' : Emu H F}
    (ms : List (Emu H F))
    (h : score_model_with_cv ops split s m = (s', m', none)) :
    compareLoop ops split s (m :: ms) =
      ((compareLoop ops split s' ms).1,
       m' :: (compareLoop ops split s' ms).2.1,
       (compareLoop ops split s' ms).2.2) := by
  simp only [compareLoop, h]

theorem compareLoop_cons_err {H F : Type} (ops : EmuOps H F)
    (split : Mat → List (List ℕ × List ℕ)) {s s' : AE H F} {m m' : Emu H F}
    {e : String} (ms : List (Emu H F))
    (h : score_model_with_cv ops split s m = (s', m', some e)) :
    compareLoop ops split s (m :: ms) = (s', m' :: ms, some e) := by
  simp only [compareLoop, h]

theorem compareLoop_df_extends {H F : Type} (ops : EmuOps H F)
    (split : Mat → List (List ℕ × List ℕ)) :
    ∀ (ms : List (Emu H F)) (s : AE H F),
      ∃ t, (compareLoop ops split s ms).1.scores_df = s.scores_df ++ t := by
  intro ms
  induction ms with
  | nil => intro s; exact ⟨[], by simp [compareLoop]⟩
  | cons m rest ih =>
      intro s
      obtain ⟨t1, ht1⟩ := score_model_with_cv_df_extends ops split s m
      rcases hsm : score_model_with_cv ops split s m with ⟨s', m', err⟩
      have hs' : s'.scores_df = s.scores_df ++ t1 := by rw [← ht1, hsm]
      cases err with
      | none =>
          obtain ⟨t2, ht2⟩ := ih s'
          refine ⟨t1 ++ t2, ?_⟩
          rw [compareLoop_cons_ok ops split rest hsm]
          simp only []
          rw [ht2, hs', List.append_assoc]
      | some e =>
          refine ⟨t1, ?_⟩
          rw [compareLoop_cons_err ops split rest hsm]
          exact hs'

theorem compareLoop_append {H F : Type} (ops : EmuOps H F)
    (split : Mat → List (List ℕ × List ℕ)) :
    ∀ (ms1 : List (Emu H F)) (ms2 : List (Emu H F)) (s s1 : AE H F)
      (ms1' : List (Emu H F)),
      compareLoop ops split s ms1 = (s1, ms1', none) →
      compareLoop ops split s (ms1 ++ ms2) =
        ((compareLoop ops split s1 ms2).1,
         ms1' ++ (compareLoop ops split s1 ms2).2.1,
         (compareLoop ops split s1 ms2).2.2) := by
  intro ms1
  induction ms1 with
  | nil =>
      intro ms2 s s1 ms1' h
      simp only [compareLoop] at h
      have hs : s = s1 := congrArg Prod.fst h
      have hm : ([] : List (Emu H F)) = ms1' := congrArg (fun p => p.2.1) h
      subst hs
      rw [← hm]
      simp
  | cons m rest ih =>
      intro ms2 s s1 ms1' h
      rcases hsm : score_model_with_cv ops split s m with ⟨s', m', err⟩
      cases err with
      | none =>
          rw [compareLoop_cons_ok ops split rest hsm] at h
          have h1 : (compareLoop ops split s' rest).1 = s1 := congrArg Prod.fst h
          have h2 : ms1' = m' :: (compareLoop ops split s' rest).2.1 :=
            (congrArg (fun p => p.2.1) h).symm
          have h3 : (compareLoop ops split s' rest).2.2 = none :=
            congrArg (fun p => p.2.2) h
          have hrest : compareLoop ops split s' rest =
              (s1, (compareLoop ops split s' rest).2.1, none) := by
            rw [← h1, ← h3]
          rw [List.cons_append, compareLoop_cons_ok ops split (rest ++ ms2) hsm,
            ih ms2 s' s1 _ hrest, h2]
          simp
      | some e =>
          rw [compareLoop_cons_err ops split rest hsm] at h
          exact absurd (congrArg (fun p => p.2.2) h) (by simp)

/-- C2 amended: an exception raised while scoring one model propagates
out of `compare` — the sweep stops at the failing model, the models
after it are never processed (they are returned to `self.models`
untouched), and every score record appended before the failure,
including all earlier models' records, remains in the table (the old
table is a prefix of the final one). -/
theorem compare_strict_abort {H F : Type} (ops : EmuOps H F)
    (split : Mat → List (List ℕ × List ℕ)) (s s1 s2 : AE H F)
    (ms1 ms1' ms2 : List (Emu H F)) (m m' : Emu H F) (e : String)
    (hsetup : s.is_set_up = true)
    (hmodels : s.models = ms1 ++ m :: ms2)
    (hok : compareLoop ops split s ms1 = (s1, ms1', none))
    (hfail : score_model_with_cv ops split s1 m = (s2, m', some e)) :
    AE.compare ops split s = ({ s2 with models := ms1' ++ m' :: ms2 }, some e) ∧
    (∃ t, s2.scores_df = s1.scores_df ++ t) ∧
    (∃ t, s2.scores_df = s.scores_df ++ t) := by
  have hstep : compareLoop ops split s1 (m :: ms2) = (s2, m' :: ms2, some e) :=
    compareLoop_cons_err ops split ms2 hfail
  have hall : compareLoop ops split s (ms1 ++ m :: ms2) =
      (s2, ms1' ++ m' :: ms2, some e) := by
    rw [compareLoop_append ops split ms1 (m :: ms2) s s1 ms1' hok, hstep]
  have hx1 : ∃ t, s2.scores_df = s1.scores_df ++ t := by
    obtain ⟨t, ht⟩ := score_model_with_cv_df_extends ops split s1 m
    exact ⟨t, by rw [← ht, hfail]⟩
  have hx0 : ∃ t, s1.scores_df = s.scores_df ++ t := by
    obtain ⟨t, ht⟩ := compareLoop_df_extends ops split ms1 s
    exact ⟨t, by rw [← ht, hok]⟩
  refine ⟨?_, hx1, ?_⟩
  · simp only [AE.compare, hsetup, if_true, hmodels, hall]
  · obtain ⟨t1, ht1⟩ := hx0
    obtain ⟨t2, ht2⟩ := hx1
    exact ⟨t1 ++ t2, by rw [ht2, ht1, List.append_assoc]⟩

/-- Witness for `compare_strict_abort` on the concrete three-model state
`tkStateABC`: model "B"'s fit raises "boom", `compare` surfaces the
exception with model "A"'s record retained and models "B", "C" returned
unprocessed. -/
theorem compare_strict_abort_witness :
    AE.compare tkOpsE tkSplit1 tkStateABC =
      ({ (⟨[[.fin 0]], [[.fin 1]], [⟨"A", "r2", 0, 0⟩], true,
          [("A", [(0, ([[.fin 1]], [[.fin 0]]))]), ("B", [])],
          [⟨"A", 0, none⟩, ⟨"B", 1, none⟩, ⟨"C", 2, none⟩], ["r2"]⟩ : AE ℕ ℕ) with
         models := [⟨"A", 0, some 0⟩] ++ ⟨"B", 1, none⟩ :: [⟨"C", 2, none⟩] },
       some "boom") :=
  (compare_strict_abort tkOpsE tkSplit1 tkStateABC
    ⟨[[.fin 0]], [[.fin 1]], [⟨"A", "r2", 0, 0⟩], true,
      [("A", [(0, ([[.fin 1]], [[.fin 0]]))])],
      [⟨"A", 0, none⟩, ⟨"B", 1, none⟩, ⟨"C", 2, none⟩], ["r2"]⟩
    ⟨[[.fin 0]], [[.fin 1]], [⟨"A", "r2", 0, 0⟩], true,
      [("A", [(0, ([[.fin 1]], [[.fin 0]]))]), ("B", [])],
      [⟨"A", 0, none⟩, ⟨"B", 1, none⟩, ⟨"C", 2, none⟩], ["r2"]⟩
    [⟨"A", 0, none⟩] [⟨"A", 0, some 0⟩] [⟨"C", 2, none⟩]
    ⟨"B", 1, none⟩ ⟨"B", 1, none⟩ "boom"
    rfl rfl (by decide) (by decide)).1

/-- C2 counterexample: on `tkStateABC`, where model "B"'s fit raises,
`compare` aborts with the exception — model "A"'s earlier records are in
the table but model "C", which follows the failing model, was never
scored, so the sweep did not continue past the failure. -/
theorem compare_no_partial_failure_cex :
    (AE.compare tkOpsE tkSplit1 tkStateABC).2 = some "boom" ∧
    ((AE.compare tkOpsE tkSplit1 tkStateABC).1.scores_df.any
      fun r => r.model = "A") = true ∧
    ((AE.compare tkOpsE tkSplit1 tkStateABC).1.scores_df.any
      fun r => r.model = "C") = false := by
  decide

/-- C1: `compare` does not reset `scores_df` — on the set-up one-model
state `tkStateA`, running `compare` a second time yields exactly the
concatenation of the first run's table with itself, which differs from
the single-run table (duplicate records accumulate across reruns). -/
theorem compare_rerun_accumulates :
    (AE.compare tkOpsT tkSplit2 (AE.compare tkOpsT tkSplit2 tkStateA).1).1.scores_df =
      (AE.compare tkOpsT tkSplit2 tkStateA).1.scores_df ++
        (AE.compare tkOpsT tkSplit2 tkStateA).1.scores_df ∧
    (AE.compare tkOpsT tkSplit2 (AE.compare tkOpsT tkSplit2 tkStateA).1).1.scores_df ≠
      (AE.compare tkOpsT tkSplit2 tkStateA).1.scores_df := by
  decide

theorem firstArgmaxScore_mem : ∀ {l : List ScoreRecord} {r : ScoreRecord},
    firstArgmaxScore l = some r → r ∈ l := by
  intro l
  induction l with
  | nil => intro r h; simp [firstArgmaxScore] at h
  | cons a as ih =>
      intro r h
      simp only [firstArgmaxScore] at h
      cases h2 : firstArgmaxScore as with
      | none =>
          rw [h2] at h
          simp only [Option.some.injEq] at h
          exact h ▸ List.mem_cons_self a as
      | some b =>
          rw [h2] at h
          by_cases hc : b.score > a.score
          · simp only [hc, if_true, Option.some.injEq] at h
            exact List.mem_cons_of_mem a (h ▸ ih h2)
          · simp only [hc, if_false, Option.some.injEq] at h
            exact h ▸ List.mem_cons_self a as

theorem firstArgmaxScore_max : ∀ {l : List ScoreRecord} {r : ScoreRecord},
    firstArgmaxScore l = some r → ∀ x ∈ l, x.score ≤ r.score := by
  intro l
  induction l with
  | nil => intro r h; simp [firstArgmaxScore] at h
  | cons a as ih =>
      intro r h x hx
      simp only [firstArgmaxScore] at h
      cases h2 : firstArgmaxScore as with
      | none =>
          have has : as = [] := by
            cases hs : as with
            | nil => rfl
            | cons c cs => rw [hs] at h2; simp only [firstArgmaxScore] at h2
                           cases h3 : firstArgmaxScore cs with
                           | none => rw [h3] at h2; simp at h2
                           | some d => rw [h3] at h2
                                       by_cases hc : d.score > c.score <;>
                                         simp [hc] at h2
          rw [h2] at h
          simp only [Option.some.injEq] at h
          subst has
          rcases List.mem_singleton.mp hx with rfl
          exact le_of_eq (by rw [h])
      | some b =>
          rw [h2] at h
          by_cases hc : b.score > a.score
          · simp only [hc, if_true, Option.some.injEq] at h
            subst h
            rcases List.mem_cons.mp hx with rfl | hmem
            · exact le_of_lt hc
            · exact ih h2 x hmem
          · simp only [hc, if_false, Option.some.injEq] at h
            subst h
            rcases List.mem_cons.mp hx with rfl | hmem
            · exact le_refl _
            · exact le_trans (ih h2 x hmem) (not_lt.mp hc)

theorem firstArgmaxScore_first_tie : ∀ {l : List ScoreRecord} {r : ScoreRecord},
    firstArgmaxScore l = some r →
    l.Pairwise (fun a b => a.fold < b.fold) →
    ∀ x ∈ l, x.score = r.score → r.fold ≤ x.fold := by
  intro l
  induction l with
  | nil => intro r h; simp [firstArgmaxScore] at h
  | cons a as ih =>
      intro r h hp x hx hsc
      obtain ⟨hhead, htail⟩ := List.pairwise_cons.mp hp
      simp only [firstArgmaxScore] at h
      cases h2 : firstArgmaxScore as with
      | none =>
          rw [h2] at h
          simp only [Option.some.injEq] at h
          subst h
          rcases List.mem_cons.mp hx with rfl | hmem
          · exact le_refl _
          · exact le_of_lt (hhead x hmem)
      | some b =>
          rw [h2] at h
          by_cases hc : b.score > a.score
          · simp only [hc, if_true, Option.some.injEq] at h
            subst h
            rcases List.mem_cons.mp hx with rfl | hmem
            · exact absurd (hsc ▸ hc) (lt_irrefl _)
            · exact ih h2 htail x hmem hsc
          · simp only [hc, if_false, Option.some.injEq] at h
            subst h
            rcases List.mem_cons.mp hx with rfl | hmem
            · exact le_refl _
            · exact le_of_lt (hhead x hmem)

/-- C9: the best-fold computation of `plot_predictions` returns, for a
model, the fold of the first maximal-score record among that model's
"r2" rows; when the rows are listed in increasing fold order (as
`compare` appends them), the returned fold has maximal score and, among
all folds attaining the maximum, is the lowest fold index. -/
theorem best_fold_r2_argmax_lowest (df : List ScoreRecord) (model : String)
    (r : ScoreRecord)
    (h : firstArgmaxScore ((df.filter (fun x => x.metric = "r2")).filter
          (fun x => x.model = model)) = some r)
    (hp : ((df.filter (fun x => x.metric = "r2")).filter
          (fun x => x.model = model)).Pairwise (fun a b => a.fold < b.fold)) :
    best_fold_r2 df model = some r.fold ∧
    r ∈ (df.filter (fun x => x.metric = "r2")).filter (fun x => x.model = model) ∧
    (∀ x ∈ (df.filter (fun x => x.metric = "r2")).filter
        (fun x => x.model = model), x.score ≤ r.score) ∧
    (∀ x ∈ (df.filter (fun x => x.metric = "r2")).filter
        (fun x => x.model = model), x.score = r.score → r.fold ≤ x.fold) :=
  ⟨by simp only [best_fold_r2, h, Option.map_some'], firstArgmaxScore_mem h,
   firstArgmaxScore_max h, firstArgmaxScore_first_tie h hp⟩

/-- Witness for `best_fold_r2_argmax_lowest` on the fold scores
0 ↦ 0.5, 1 ↦ 0.9, 2 ↦ 0.9, 3 ↦ 0.3: the selected fold is 1, the lowest
index among the tied maximal folds 1 and 2. -/
theorem best_fold_r2_argmax_lowest_witness :
    best_fold_r2 [⟨"M", "r2", 0, 1/2⟩, ⟨"M", "r2", 1, 9/10⟩,
      ⟨"M", "r2", 2, 9/10⟩, ⟨"M", "r2", 3, 3/10⟩] "M" = some 1 :=
  (best_fold_r2_argmax_lowest [⟨"M", "r2", 0, 1/2⟩, ⟨"M", "r2", 1, 9/10⟩,
      ⟨"M", "r2", 2, 9/10⟩, ⟨"M", "r2", 3, 3/10⟩] "M" ⟨"M", "r2", 1, 9/10⟩
    (by norm_num [firstArgmaxScore, List.filter])
    (by norm_num [List.filter, List.pairwise_cons])).1

theorem map_singleton_getD (l : List ℚ) :
    l.map (fun v => ([v] : List ℚ).getD 0 0) = l := by
  induction l with
  | nil => rfl
  | cons a t ih => simp only [List.map_cons, ih]; rfl

theorem squeeze_column (xs : List ℚ) (h : 2 ≤ xs.length) :
    (NdArr.a2 (xs.map fun v => [v])).squeeze = .a1 xs := by
  cases xs with
  | nil => simp at h
  | cons x1 t =>
      cases t with
      | nil => simp at h
      | cons x2 t2 =>
          have h1 : ¬ (((x1 :: x2 :: t2).map fun v => [v]).length = 1) := by simp
          have h2 : ((((x1 :: x2 :: t2).map fun v => [v]).getD 0 []).length = 1) := by
            simp [List.getD]
          simp [NdArr.squeeze, h1, h2, List.map_map, Function.comp, List.getD]
          exact map_singleton_getD t2

/-- C10 amended: for a model fitted on a one-dimensional target with
`normalize_y`, when the internal skorch prediction is one-dimensional,
or two-dimensional with one column and at least two rows, `predict`
returns one-dimensional output whose mean is the internal normalized
prediction rescaled by the stored training standard deviation and mean
of y and whose std is scaled by the stored standard deviation only
(`mean * σ + μ`, `std * σ`); `fit` stores exactly the mean of y and its
zero-guarded standard deviation.  (A single-row two-dimensional internal
prediction instead squeezes to a zero-dimensional scalar.) -/
theorem gp_predict_one_dim (f : GPTorchFitted) (xs ss ys : List ℚ)
    (stdFn : List ℚ → ℚ) (h1 : f.y_dim = 1) (h2 : f.normalize_y = true)
    (hx : 2 ≤ xs.length) (hs : 2 ≤ ss.length) :
    (GaussianProcessTorch.predict f (.a1 xs) (.a1 ss) true =
      .withStd (.a1 (xs.map fun v => v * f.y_train_std + f.y_train_mean))
               (.a1 (ss.map fun v => v * f.y_train_std))) ∧
    (GaussianProcessTorch.predict f (.a2 (xs.map fun v => [v]))
        (.a2 (ss.map fun v => [v])) true =
      .withStd (.a1 (xs.map fun v => v * f.y_train_std + f.y_train_mean))
               (.a1 (ss.map fun v => v * f.y_train_std))) ∧
    (GaussianProcessTorch.predict f (.a1 xs) (.a1 ss) false =
      .single (.a1 (xs.map fun v => v * f.y_train_std + f.y_train_mean))) ∧
    ((GaussianProcessTorch.fit_stats true stdFn ys).1.y_train_mean = np_mean ys ∧
     (GaussianProcessTorch.fit_stats true stdFn ys).1.y_train_std =
       handle_zeros_in_scale (stdFn ys)) := by
  refine ⟨?_, ?_, ?_, ?_, ?_⟩
  · simp [GaussianProcessTorch.predict, NdArr.ndim, h2, NdArr.scaleShift,
      NdArr.scaleBy]
  · have hsq1 := squeeze_column xs hx
    have hsq2 := squeeze_column ss hs
    simp [GaussianProcessTorch.predict, NdArr.ndim, h1, h2, hsq1, hsq2,
      NdArr.scaleShift, NdArr.scaleBy]
  · simp [GaussianProcessTorch.predict, NdArr.ndim, h2, NdArr.scaleShift,
      NdArr.scaleBy]
  · simp [GaussianProcessTorch.fit_stats]
  · simp [GaussianProcessTorch.fit_stats]

/-- Witness for `gp_predict_one_dim` with stored mean 3 and std 2:
internal means [1, 2] and stds [1, 1] come back as [5, 7] and [2, 2]. -/
theorem gp_predict_one_dim_witness :
    GaussianProcessTorch.predict ⟨1, true, 3, 2⟩ (.a1 [1, 2]) (.a1 [1, 1]) true =
      .withStd (.a1 [5, 7]) (.a1 [2, 2]) :=
  ((gp_predict_one_dim ⟨1, true, 3, 2⟩ [1, 2] [1, 1] [0] (fun _ => 0)
      rfl rfl (by decide) (by decide)).1).trans (by norm_num)

/-- C10 counterexample: predicting a single test sample whose internal
prediction is a (1, 1) array squeezes to a zero-dimensional scalar
(still correctly rescaled), not a one-dimensional array — `squeeze()`
removes the row axis too. -/
theorem gp_predict_single_sample_cex :
    GaussianProcessTorch.predict ⟨1, true, 3, 2⟩ (.a2 [[5]]) (.a2 [[4]]) true =
      .withStd (.a0 13) (.a0 8) ∧
    NdArr.ndim (.a0 13) ≠ 1 := by
  refine ⟨?_, by simp [NdArr.ndim]⟩
  norm_num [GaussianProcessTorch.predict, NdArr.squeeze, NdArr.ndim,
    NdArr.scaleShift, NdArr.scaleBy, List.getD]

end AutoEmu
